import Mathlib

/-!
Verification of the windowed-sequence dataset transform and the
train/evaluate harness of the flight-passenger LSTM notebook
(FlightPassengerPredictions.ipynb).

The Python source is shallowly embedded: the sliding-window transform
`create_dataset`, the min-max scaler, the train/test split, the training
loop (as a trace of optimizer operations), and the evaluator (inverse
transform followed by RMSE) become Lean definitions, and the spec's
claims about them are proved or refuted below.
-/

namespace FlightPassenger

/-- Embedding of the notebook function
`create_dataset(dataset, look_back)`: for each
`i in range(len(dataset) - look_back - 1)` it collects the window
`dataset[i : i + look_back]` into `dataX` and the label
`dataset[i + look_back]` into `dataY`, returning the pair of arrays. -/
def create_dataset {α : Type} [Inhabited α] (dataset : List α)
    (look_back : ℕ := 1) : List (List α) × List α :=
  ((List.range (dataset.length - look_back - 1)).map
      (fun i => (dataset.drop i).take look_back),
   (List.range (dataset.length - look_back - 1)).map
      (fun i => dataset.getD (i + look_back) default))

lemma create_dataset_fst_length {α : Type} [Inhabited α] (S : List α) (L : ℕ) :
    (create_dataset S L).1.length = S.length - L - 1 := by
  simp [create_dataset]

lemma create_dataset_snd_length {α : Type} [Inhabited α] (S : List α) (L : ℕ) :
    (create_dataset S L).2.length = S.length - L - 1 := by
  simp [create_dataset]

lemma create_dataset_fst_getElem? {α : Type} [Inhabited α] (S : List α)
    (L i : ℕ) (h : i < S.length - L - 1) :
    (create_dataset S L).1[i]? = some ((S.drop i).take L) := by
  simp [create_dataset, List.getElem?_map, List.getElem?_range, h]

lemma create_dataset_snd_getElem? {α : Type} [Inhabited α] (S : List α)
    (L i : ℕ) (h : i < S.length - L - 1) :
    (create_dataset S L).2[i]? = S[i + L]? := by
  have hiL : i + L < S.length := by omega
  simp [create_dataset, List.getElem?_map, List.getElem?_range, h,
    List.getD_eq_getElem?_getD, List.getElem?_eq_getElem hiL]

lemma window_getElem? {α : Type} (S : List α) (L i j : ℕ) (hj : j < L) :
    ((S.drop i).take L)[j]? = S[i + j]? := by
  rw [List.getElem?_take_of_lt hj]
  simp [List.getElem?_drop]

/-- C1: for every series `S` of length `N` and window length `L`,
`create_dataset` returns exactly `max 0 (N - L - 1)` pairs; the `i`-th
pair is `(S[i : i+L], S[i+L])` for `i = 0 … N-L-2` in increasing order
of `i`; when `N ≤ L + 1` the result is empty; in particular each pair's
label is the series element immediately following its window. -/
theorem create_dataset_spec {α : Type} [Inhabited α] (S : List α) (L : ℕ) :
    (create_dataset S L).1.length = S.length - L - 1 ∧
    (create_dataset S L).2.length = S.length - L - 1 ∧
    ((create_dataset S L).1.length : ℤ) = max 0 ((S.length : ℤ) - L - 1) ∧
    (∀ i, i < S.length - L - 1 →
      (create_dataset S L).1[i]? = some ((S.drop i).take L) ∧
      (create_dataset S L).2[i]? = S[i + L]?) ∧
    (S.length ≤ L + 1 → (create_dataset S L).1 = [] ∧ (create_dataset S L).2 = []) := by
  refine ⟨create_dataset_fst_length S L, create_dataset_snd_length S L, ?_, ?_, ?_⟩
  · rw [create_dataset_fst_length]
    omega
  · intro i hi
    exact ⟨create_dataset_fst_getElem? S L i hi, create_dataset_snd_getElem? S L i hi⟩
  · intro hN
    have h1 : S.length - L - 1 = 0 := by omega
    constructor
    · have := create_dataset_fst_length S L
      rw [h1] at this
      exact List.length_eq_zero.mp this
    · have := create_dataset_snd_length S L
      rw [h1] at this
      exact List.length_eq_zero.mp this

/-- Witness for C1 at the concrete series `[1,2,3,4,5,6,7]` with window
length 2: the 0-th pair is `([1,2], 3)`. -/
theorem create_dataset_spec_witness :
    (create_dataset ([1,2,3,4,5,6,7] : List ℕ) 2).1[0]? =
      some ((([1,2,3,4,5,6,7] : List ℕ).drop 0).take 2) ∧
    (create_dataset ([1,2,3,4,5,6,7] : List ℕ) 2).2[0]? =
      ([1,2,3,4,5,6,7] : List ℕ)[0 + 2]? :=
  (create_dataset_spec ([1,2,3,4,5,6,7] : List ℕ) 2).2.2.2.1 0 (by decide)

/-- C2 fails as stated: on the series `[1,…,10]` with window length 3,
`create_dataset` does NOT produce the 7 pairs ending with `([7,8,9],10)`
claimed by the spec. -/
theorem create_dataset_example_counterexample :
    create_dataset ([1,2,3,4,5,6,7,8,9,10] : List ℕ) 3 ≠
      ([[1,2,3],[2,3,4],[3,4,5],[4,5,6],[5,6,7],[6,7,8],[7,8,9]],
       [4,5,6,7,8,9,10]) := by
  decide

/-- C2 amended: on the series `[1,…,10]` with window length 3,
`create_dataset` produces exactly the 6 pairs
`([1,2,3],4), ([2,3,4],5), ([3,4,5],6), ([4,5,6],7), ([5,6,7],8),
([6,7,8],9)` — matching `N - L - 1 = 10 - 3 - 1 = 6` — ending with
`([6,7,8],9)`. -/
theorem create_dataset_example_amended :
    create_dataset ([1,2,3,4,5,6,7,8,9,10] : List ℕ) 3 =
      ([[1,2,3],[2,3,4],[3,4,5],[4,5,6],[5,6,7],[6,7,8]],
       [4,5,6,7,8,9]) := by
  decide

/-- Embedding of sklearn's `MinMaxScaler(feature_range=(0, 1))` after
fitting: the fit records the observed minimum and maximum of the data. -/
structure MinMaxScaler (α : Type) where
  dataMin : α
  dataMax : α

/-- `scaler.transform`: with feature range `(0, 1)` the fitted transform
maps `x` to `(x - dataMin) / (dataMax - dataMin)`. -/
def MinMaxScaler.transform {α : Type} [Field α] (s : MinMaxScaler α) (x : α) : α :=
  (x - s.dataMin) / (s.dataMax - s.dataMin)

/-- `scaler.inverse_transform`: maps a normalized value `y` back to
`y * (dataMax - dataMin) + dataMin`. -/
def MinMaxScaler.inverse_transform {α : Type} [Field α] (s : MinMaxScaler α)
    (y : α) : α :=
  y * (s.dataMax - s.dataMin) + s.dataMin

/-- C3: for a scaler fitted with `dataMin < dataMax`, inverting the
normalization of any `x` returns `x` exactly (the round-trip law); in
particular with min 100 and max 700 the value 112 normalizes to
`2/100 = 0.02` and `0.02` inverts back to `112`. -/
theorem scaler_roundtrip (s : MinMaxScaler ℚ) (h : s.dataMin < s.dataMax)
    (x : ℚ) :
    s.inverse_transform (s.transform x) = x ∧
    MinMaxScaler.transform ⟨100, 700⟩ (112 : ℚ) = 2 / 100 ∧
    MinMaxScaler.inverse_transform ⟨100, 700⟩ ((2 : ℚ) / 100) = 112 := by
  refine ⟨?_, by norm_num [MinMaxScaler.transform],
    by norm_num [MinMaxScaler.inverse_transform]⟩
  have hne : s.dataMax - s.dataMin ≠ 0 := by
    intro hz
    exact absurd (by linarith : s.dataMax ≤ s.dataMin) (not_le.mpr h)
  field_simp [MinMaxScaler.transform, MinMaxScaler.inverse_transform]

/-- Witness for C3 at the concrete scaler `min = 100, max = 700` and
input `x = 112`. -/
theorem scaler_roundtrip_witness :
    MinMaxScaler.inverse_transform ⟨100, 700⟩
      (MinMaxScaler.transform ⟨100, 700⟩ (112 : ℚ)) = 112 :=
  (scaler_roundtrip ⟨100, 700⟩ (by norm_num) 112).1

/-- Embedding of `train_size = int(len(dataset) * 0.67)`. -/
def trainSize (n : ℕ) : ℕ := 67 * n / 100

/-- Embedding of `test_size = len(dataset) - train_size`. -/
def testSize (n : ℕ) : ℕ := n - trainSize n

lemma trainSize_le (n : ℕ) : trainSize n ≤ n := by
  have h1 : 67 * n / 100 ≤ 100 * n / 100 :=
    Nat.div_le_div_right (by omega)
  have h2 : 100 * n / 100 = n := by omega
  calc trainSize n ≤ 100 * n / 100 := h1
    _ = n := h2

/-- C10: the train/test split is a partition of the normalized series:
with `train_size = ⌊0.67 * N⌋` and `test_size = N - train_size`, the
train slice `dataset[0:train_size]` concatenated with the test slice
`dataset[train_size:N]` equals the full dataset, every element belongs
to exactly one partition, and order is preserved. -/
theorem split_partition {α : Type} (dataset : List α) :
    dataset.take (trainSize dataset.length) ++
      dataset.drop (trainSize dataset.length) = dataset ∧
    (dataset.take (trainSize dataset.length)).length = trainSize dataset.length ∧
    (dataset.drop (trainSize dataset.length)).length = testSize dataset.length ∧
    trainSize dataset.length + testSize dataset.length = dataset.length := by
  have hle := trainSize_le dataset.length
  refine ⟨List.take_append_drop _ _, ?_, ?_, ?_⟩
  · simp [List.length_take, Nat.min_eq_left hle]
  · simp [List.length_drop, testSize]
  · simp [testSize]
    omega

lemma lt_length_of_getElem?_eq_some {α : Type} {l : List α} {i : ℕ} {a : α}
    (h : l[i]? = some a) : i < l.length := by
  by_contra hn
  rw [List.getElem?_eq_none (by omega)] at h
  exact Option.noConfusion h

/-- C4: every training window element and label comes from the train
partition `dataset[0:train_size]` (an index `k < t`), and every test
window element and label comes from the test partition
`dataset[train_size:N]` (an index `t ≤ k < N`); no windowed example
mixes the two sides of the boundary. -/
theorem windows_within_partition {α : Type} [Inhabited α] (dataset : List α)
    (t L : ℕ) :
    (∀ (i : ℕ) (w : List α), (create_dataset (dataset.take t) L).1[i]? = some w →
      ∀ j, j < w.length → ∃ k, k < t ∧ w[j]? = dataset[k]?) ∧
    (∀ i : ℕ, i < (create_dataset (dataset.take t) L).2.length →
      ∃ k, k < t ∧ (create_dataset (dataset.take t) L).2[i]? = dataset[k]?) ∧
    (∀ (i : ℕ) (w : List α), (create_dataset (dataset.drop t) L).1[i]? = some w →
      ∀ j, j < w.length → ∃ k, t ≤ k ∧ k < dataset.length ∧ w[j]? = dataset[k]?) ∧
    (∀ i : ℕ, i < (create_dataset (dataset.drop t) L).2.length →
      ∃ k, t ≤ k ∧ k < dataset.length ∧
        (create_dataset (dataset.drop t) L).2[i]? = dataset[k]?) := by
  constructor
  · intro i w hw j hj
    have hi : i < (dataset.take t).length - L - 1 := by
      have hlen := create_dataset_fst_length (dataset.take t) L
      have hil := lt_length_of_getElem?_eq_some hw
      omega
    have hw2 := create_dataset_fst_getElem? (dataset.take t) L i hi
    rw [hw] at hw2
    have hweq : w = ((dataset.take t).drop i).take L := by
      exact Option.some.inj hw2
    subst hweq
    have hjL : j < L := by
      have := List.length_take_le L ((dataset.take t).drop i)
      omega
    refine ⟨i + j, ?_, ?_⟩
    · have hlt : (dataset.take t).length ≤ t := by
        simp [List.length_take]
      omega
    · rw [window_getElem? (dataset.take t) L i j hjL]
      have hij : i + j < t := by
        have hlt : (dataset.take t).length ≤ t := by
          simp [List.length_take]
        omega
      exact List.getElem?_take_of_lt hij
  constructor
  · intro i hi
    have hlen := create_dataset_snd_length (dataset.take t) L
    have hi2 : i < (dataset.take t).length - L - 1 := by omega
    refine ⟨i + L, ?_, ?_⟩
    · have hlt : (dataset.take t).length ≤ t := by
        simp [List.length_take]
      omega
    · rw [create_dataset_snd_getElem? (dataset.take t) L i hi2]
      have hiL : i + L < t := by
        have hlt : (dataset.take t).length ≤ t := by
          simp [List.length_take]
        omega
      exact List.getElem?_take_of_lt hiL
  constructor
  · intro i w hw j hj
    have hi : i < (dataset.drop t).length - L - 1 := by
      have hlen := create_dataset_fst_length (dataset.drop t) L
      have hil := lt_length_of_getElem?_eq_some hw
      omega
    have hw2 := create_dataset_fst_getElem? (dataset.drop t) L i hi
    rw [hw] at hw2
    have hweq : w = ((dataset.drop t).drop i).take L := by
      exact Option.some.inj hw2
    subst hweq
    have hjL : j < L := by
      have := List.length_take_le L ((dataset.drop t).drop i)
      omega
    have hlend : (dataset.drop t).length = dataset.length - t := by
      simp [List.length_drop]
    refine ⟨t + (i + j), by omega, by omega, ?_⟩
    rw [window_getElem? (dataset.drop t) L i j hjL]
    exact List.getElem?_drop dataset t (i + j)
  · intro i hi
    have hlen := create_dataset_snd_length (dataset.drop t) L
    have hi2 : i < (dataset.drop t).length - L - 1 := by omega
    have hlend : (dataset.drop t).length = dataset.length - t := by
      simp [List.length_drop]
    refine ⟨t + (i + L), by omega, by omega, ?_⟩
    rw [create_dataset_snd_getElem? (dataset.drop t) L i hi2]
    exact List.getElem?_drop dataset t (i + L)

/-- Witness for C4 on the series `[1,…,10]` split at `t = 6` with
window length 2: the 0-th training window's 0-th element is an element
of the train partition. -/
theorem windows_within_partition_witness :
    ∃ k, k < 6 ∧ (([1,2] : List ℕ))[0]? = ([1,2,3,4,5,6,7,8,9,10] : List ℕ)[k]? :=
  (windows_within_partition ([1,2,3,4,5,6,7,8,9,10] : List ℕ) 6 2).1
    0 [1,2] (by decide) 0 (by decide)

/-- C8: consecutive windows of `create_dataset` overlap by `L - 1`
elements: window `i+1` is window `i` shifted left by one position
(`dataX[i+1][j] = dataX[i][j+1]` for `j = 0 … L-2`), and the last
element of window `i+1` equals the label of pair `i`
(`dataX[i+1][L-1] = dataY[i]`). -/
theorem window_overlap {α : Type} [Inhabited α] (S : List α) (L i : ℕ)
    (w w' : List α)
    (hw : (create_dataset S L).1[i]? = some w)
    (hw' : (create_dataset S L).1[i + 1]? = some w') :
    (∀ j, j + 1 < L → w'[j]? = w[j + 1]?) ∧
    (0 < L → w'[L - 1]? = (create_dataset S L).2[i]?) := by
  have hi' : i + 1 < S.length - L - 1 := by
    have hlen := create_dataset_fst_length S L
    have hil := lt_length_of_getElem?_eq_some hw'
    omega
  have hi : i < S.length - L - 1 := by omega
  have hwv := create_dataset_fst_getElem? S L i hi
  rw [hw] at hwv
  have hwv' := create_dataset_fst_getElem? S L (i + 1) hi'
  rw [hw'] at hwv'
  have hweq : w = (S.drop i).take L := Option.some.inj hwv
  have hweq' : w' = (S.drop (i + 1)).take L := Option.some.inj hwv'
  subst hweq
  subst hweq'
  constructor
  · intro j hj
    rw [window_getElem? S L (i + 1) j (by omega),
      window_getElem? S L i (j + 1) hj]
    have harith : i + 1 + j = i + (j + 1) := by omega
    rw [harith]
  · intro hL
    rw [window_getElem? S L (i + 1) (L - 1) (by omega),
      create_dataset_snd_getElem? S L i hi]
    have harith : i + 1 + (L - 1) = i + L := by omega
    rw [harith]

/-- Witness for C8 on the series `[1,…,7]` with `L = 2`, at `i = 0`:
the last element of window 1 equals the label of pair 0. -/
theorem window_overlap_witness :
    ([2,3] : List ℕ)[2 - 1]? = (create_dataset ([1,2,3,4,5,6,7] : List ℕ) 2).2[0]? :=
  (window_overlap ([1,2,3,4,5,6,7] : List ℕ) 2 0 [1,2] [2,3]
    (by decide) (by decide)).2 (by decide)

/-- C7: the plotting shift offsets reproduce the windowing trim: train
prediction `i` is placed at original-series index `L + i`, which is
where its label came from; test prediction `i` is placed at index
`len(trainPredict) + 2L + 1 + i = t + L + i`, which is where its label
came from; and the two destination slices have exactly the lengths of
the prediction arrays. -/
theorem plot_alignment {α : Type} [Inhabited α] (dataset : List α) (t L : ℕ)
    (h1 : L + 1 ≤ t) (h2 : t + L + 1 ≤ dataset.length) :
    (∀ i : ℕ, i < (create_dataset (dataset.take t) L).1.length →
      (create_dataset (dataset.take t) L).2[i]? = dataset[L + i]?) ∧
    (∀ i : ℕ, i < (create_dataset (dataset.drop t) L).1.length →
      (create_dataset (dataset.take t) L).1.length + 2 * L + 1 + i = t + L + i ∧
      (create_dataset (dataset.drop t) L).2[i]? = dataset[t + L + i]?) ∧
    (L + (create_dataset (dataset.take t) L).1.length) - L =
      (create_dataset (dataset.take t) L).1.length ∧
    dataset.length - 1 -
        ((create_dataset (dataset.take t) L).1.length + 2 * L + 1) =
      (create_dataset (dataset.drop t) L).1.length := by
  have htake : (dataset.take t).length = t := by
    simp [List.length_take]
    omega
  have hdrop : (dataset.drop t).length = dataset.length - t := by
    simp [List.length_drop]
  have htrlen := create_dataset_fst_length (dataset.take t) L
  have htelen := create_dataset_fst_length (dataset.drop t) L
  rw [htake] at htrlen
  rw [hdrop] at htelen
  refine ⟨?_, ?_, by omega, by omega⟩
  · intro i hi
    rw [htrlen] at hi
    have hi2 : i < (dataset.take t).length - L - 1 := by omega
    rw [create_dataset_snd_getElem? (dataset.take t) L i hi2]
    have hiL : i + L < t := by omega
    rw [List.getElem?_take_of_lt hiL]
    have harith : L + i = i + L := by omega
    rw [harith]
  · intro i hi
    rw [htelen] at hi
    have hi2 : i < (dataset.drop t).length - L - 1 := by
      rw [hdrop]; omega
    refine ⟨by omega, ?_⟩
    rw [create_dataset_snd_getElem? (dataset.drop t) L i hi2,
      List.getElem?_drop]
    have harith : t + (i + L) = t + L + i := by omega
    rw [harith]

/-- Witness for C7 on the series `0,…,19` with `t = 13`, `L = 5`: the
0-th train label sits at original index `5 + 0`. -/
theorem plot_alignment_witness :
    (create_dataset ((List.range 20).take 13) 5).2[0]? = (List.range 20)[5 + 0]? :=
  (plot_alignment (List.range 20) 13 5 (by decide) (by decide)).1 0 (by decide)

/-- Embedding of the model parameters of `Net`: the weights of
`self.lstm` and the weight and bias of `self.linear`. -/
structure ModelParams where
  lstmWeights : List ℚ
  linearWeight : List ℚ
  linearBias : ℚ

/-- The primitive PyTorch operations appearing in a training iteration
and in evaluation: full-batch forward on a batch, loss computation,
`loss.backward()`, `opt.step()`, `opt.zero_grad()`. -/
inductive TorchOp : Type where
  | forward (batch : List (List ℚ))
  | computeLoss
  | backward
  | optStep
  | zeroGrad

/-- Embedding of the mutable interpreter state: model parameters, the
accumulated gradients, the last full-batch prediction and the last loss
value. -/
structure TrainState (P G : Type) where
  params : P
  grads : G
  prediction : List ℚ
  loss : ℚ

/-- Embedding of `loss = torch.sum((prediction.flatten() - trainY.flatten())**2)`:
the sum-of-squared-errors loss over the whole training set. -/
def sseLoss (prediction target : List ℚ) : ℚ :=
  (List.zipWith (fun a b => (a - b) ^ 2) prediction target).sum

/-- Semantics of one primitive operation. `netApply` is the model's
full-batch forward map; `gradOf` accumulates gradients of the loss;
`upd` is one optimizer (Adam) step; `zeroG` is the cleared gradient. -/
def applyOp {P G : Type} (netApply : P → List (List ℚ) → List ℚ)
    (trainY : List ℚ) (gradOf : P → G → G) (upd : P → G → P) (zeroG : G)
    (s : TrainState P G) : TorchOp → TrainState P G
  | TorchOp.forward batch => { s with prediction := netApply s.params batch }
  | TorchOp.computeLoss => { s with loss := sseLoss s.prediction trainY }
  | TorchOp.backward => { s with grads := gradOf s.params s.grads }
  | TorchOp.optStep => { s with params := upd s.params s.grads }
  | TorchOp.zeroGrad => { s with grads := zeroG }

/-- The body of the training loop, in source order:
`prediction = net(trainX)`, `loss = …`, `loss.backward()`,
`opt.step()`, `opt.zero_grad()`. -/
def iterationOps (trainX : List (List ℚ)) : List TorchOp :=
  [TorchOp.forward trainX, TorchOp.computeLoss, TorchOp.backward,
   TorchOp.optStep, TorchOp.zeroGrad]

/-- Embedding of `for epoch in range(n): <body>`: the operation trace of
the training loop, one body per iteration. -/
def trainingOps (trainX : List (List ℚ)) : ℕ → List TorchOp
  | 0 => []
  | n + 1 => trainingOps trainX n ++ iterationOps trainX

/-- Run a list of operations from a starting state. -/
def runOps {P G : Type} (netApply : P → List (List ℚ) → List ℚ)
    (trainY : List ℚ) (gradOf : P → G → G) (upd : P → G → P) (zeroG : G)
    (s : TrainState P G) (ops : List TorchOp) : TrainState P G :=
  ops.foldl (applyOp netApply trainY gradOf upd zeroG) s

/-- Recognizer for the optimizer-step operation. -/
def isOptStep : TorchOp → Bool
  | TorchOp.optStep => true
  | _ => false

lemma trainingOps_eq_join (trainX : List (List ℚ)) (n : ℕ) :
    trainingOps trainX n = (List.replicate n (iterationOps trainX)).flatten := by
  induction n with
  | zero => simp [trainingOps]
  | succ m ih =>
    rw [trainingOps, ih, List.replicate_succ', List.flatten_append,
      List.flatten_cons, List.flatten_nil, List.append_nil]

lemma trainingOps_countP (trainX : List (List ℚ)) (n : ℕ) :
    (trainingOps trainX n).countP isOptStep = n := by
  induction n with
  | zero => simp [trainingOps]
  | succ m ih =>
    rw [trainingOps, List.countP_append, ih]
    simp [iterationOps, List.countP_cons, isOptStep]

lemma runOps_trainingOps {P G : Type} (netApply : P → List (List ℚ) → List ℚ)
    (trainY : List ℚ) (gradOf : P → G → G) (upd : P → G → P) (zeroG : G)
    (trainX : List (List ℚ)) (s : TrainState P G) (n : ℕ) :
    runOps netApply trainY gradOf upd zeroG s (trainingOps trainX n) =
      (fun st => runOps netApply trainY gradOf upd zeroG st
        (iterationOps trainX))^[n] s := by
  induction n generalizing s with
  | zero => simp [trainingOps, runOps]
  | succ m ih =>
    rw [trainingOps, runOps, List.foldl_append, Function.iterate_succ_apply',
      ← ih s]
    rfl

/-- C5: the training loop runs for exactly the fixed budget of 5000
iterations — the trace is 5000 copies of the iteration body, so exactly
5000 optimizer steps occur, with no early stopping and no convergence
check (the trace is a fixed list, independent of any loss value) — and
each iteration performs, in order: a full-batch forward pass over the
whole training set, computation of the sum-of-squared-errors loss,
backpropagation, one optimizer step, and clearing of the gradients. -/
theorem training_loop_spec {P G : Type}
    (netApply : P → List (List ℚ) → List ℚ) (trainY : List ℚ)
    (gradOf : P → G → G) (upd : P → G → P) (zeroG : G)
    (trainX : List (List ℚ)) (s : TrainState P G) :
    trainingOps trainX 5000 =
      (List.replicate 5000 (iterationOps trainX)).flatten ∧
    iterationOps trainX =
      [TorchOp.forward trainX, TorchOp.computeLoss, TorchOp.backward,
       TorchOp.optStep, TorchOp.zeroGrad] ∧
    (trainingOps trainX 5000).countP isOptStep = 5000 ∧
    runOps netApply trainY gradOf upd zeroG s (trainingOps trainX 5000) =
      (fun st => runOps netApply trainY gradOf upd zeroG st
        (iterationOps trainX))^[5000] s ∧
    (∀ st : TrainState P G,
      (applyOp netApply trainY gradOf upd zeroG st
        (TorchOp.forward trainX)).prediction = netApply st.params trainX) ∧
    (∀ st : TrainState P G,
      (applyOp netApply trainY gradOf upd zeroG st
        TorchOp.computeLoss).loss = sseLoss st.prediction trainY) :=
  ⟨trainingOps_eq_join trainX 5000, rfl, trainingOps_countP trainX 5000,
   runOps_trainingOps netApply trainY gradOf upd zeroG trainX s 5000,
   fun _ => rfl, fun _ => rfl⟩

/-- Embedding of the evaluation cell's model operations under
`torch.no_grad()`: `trainPredict = net(trainX)` and
`testPredict = net(testX)` — two forward passes and nothing else. -/
def evalOps (trainX testX : List (List ℚ)) : List TorchOp :=
  [TorchOp.forward trainX, TorchOp.forward testX]

/-- C9: running the evaluation forward passes leaves every model
parameter — the LSTM weights and the linear layer's weight and bias —
exactly as it was at the end of training: inference under no-gradient
mode mutates no parameter. -/
theorem eval_preserves_params {G : Type}
    (netApply : ModelParams → List (List ℚ) → List ℚ) (trainY : List ℚ)
    (gradOf : ModelParams → G → G) (upd : ModelParams → G → ModelParams)
    (zeroG : G) (trainX testX : List (List ℚ))
    (s : TrainState ModelParams G) :
    (runOps netApply trainY gradOf upd zeroG s
        (evalOps trainX testX)).params.lstmWeights = s.params.lstmWeights ∧
    (runOps netApply trainY gradOf upd zeroG s
        (evalOps trainX testX)).params.linearWeight = s.params.linearWeight ∧
    (runOps netApply trainY gradOf upd zeroG s
        (evalOps trainX testX)).params.linearBias = s.params.linearBias ∧
    (runOps netApply trainY gradOf upd zeroG s
        (evalOps trainX testX)).params = s.params :=
  ⟨rfl, rfl, rfl, rfl⟩

/-- Embedding of sklearn's `mean_squared_error(y_true, y_pred)`: the
mean over the samples of the squared differences. -/
def mean_squared_error (yTrue yPred : List ℚ) : ℚ :=
  (List.zipWith (fun a b => (a - b) ^ 2) yTrue yPred).sum / yTrue.length

/-- Embedding of the evaluation cell: run the trained model over the
train and test windows (`net(trainX)`, `net(testX)` under
`torch.no_grad()`), invert the normalization of predictions and labels
with the fit scaler, and return the two printed scores
`math.sqrt(mean_squared_error(trainY_inv, trainPredict))` and
`math.sqrt(mean_squared_error(testY_inv, testPredict))`. -/
noncomputable def evaluate {P : Type} (netApply : P → List (List ℚ) → List ℚ)
    (p : P) (s : MinMaxScaler ℚ) (trainX testX : List (List ℚ))
    (trainY testY : List ℚ) : ℝ × ℝ :=
  let trainPredict := (netApply p trainX).map s.inverse_transform
  let trainYinv := trainY.map s.inverse_transform
  let testPredict := (netApply p testX).map s.inverse_transform
  let testYinv := testY.map s.inverse_transform
  (Real.sqrt (mean_squared_error trainYinv trainPredict),
   Real.sqrt (mean_squared_error testYinv testPredict))

/-- Root-mean-squared error between a prediction sequence and a
ground-truth sequence, as the spec describes the metric. -/
noncomputable def rmse (pred truth : List ℚ) : ℝ :=
  Real.sqrt
    ((((List.zipWith (fun a b => (a - b) ^ 2) pred truth).sum / (truth.length : ℚ)) : ℚ))

lemma zipWith_sq_comm (l l' : List ℚ) :
    List.zipWith (fun a b => (a - b) ^ 2) l l' =
      List.zipWith (fun a b => (a - b) ^ 2) l' l :=
  List.zipWith_comm_of_comm _ (fun a b => by ring) l l'

/-- C6: the evaluator runs the trained model over the train and test
windows, inverts the normalization of both predictions and ground-truth
labels using the fit scaler, and its two printed scores are exactly the
root-mean-squared errors between the inverted predictions and the
inverted ground truth of the train and the test partition. -/
theorem evaluate_spec {P : Type} (netApply : P → List (List ℚ) → List ℚ)
    (p : P) (s : MinMaxScaler ℚ) (trainX testX : List (List ℚ))
    (trainY testY : List ℚ) :
    evaluate netApply p s trainX testX trainY testY =
      (rmse ((netApply p trainX).map s.inverse_transform)
          (trainY.map s.inverse_transform),
       rmse ((netApply p testX).map s.inverse_transform)
          (testY.map s.inverse_transform)) := by
  simp only [evaluate, rmse, mean_squared_error]
  rw [zipWith_sq_comm (trainY.map s.inverse_transform),
    zipWith_sq_comm (testY.map s.inverse_transform)]

end FlightPassenger
